import Mathlib

/-!
Verification development for the `firestore_sql` repository
(`src/sql-translator.js`).

The JavaScript source is shallowly embedded: each JS function of the
translator becomes an executable Lean definition over `JStr` (a JS string
modelled as `List Char`).  The regular expressions the source applies are
fixed literal patterns; each one is embedded as a dedicated recursive
matcher with JavaScript leftmost / lazy-quantifier semantics, specialised
to the whitespace-normalised strings `parseSQL` feeds them (`parseSQL`
first runs `sql.trim().replace(/\s+/g, ' ')`, so every whitespace run the
matchers ever see is a single `' '`).

JavaScript runtime builtins that the translator calls but does not define
(`new Date(string)` on arbitrary strings, epoch-to-local-time conversion,
`JSON.stringify`) are passed in as explicit function parameters where they
matter; the fixed date shapes accepted by `parseTimestamp` are modelled
concretely, including calendar validation, mirroring V8's behaviour on
exactly those shapes.  JS numbers are modelled exactly as the decimal
literals the parser reads (mantissa/exponent), plus NaN and infinities;
none of the verified claims depend on float64 rounding.
-/

namespace FsSql

/-- A JavaScript string, modelled as its list of characters. -/
abbrev JStr := List Char

/-- Convert a Lean string literal to the `JStr` model. -/
def str (s : String) : JStr := s.toList

/-- Whitespace characters recognised by the embedding (covers the JS `\s`
characters that ASCII SQL text can contain: space, tab, LF, CR, VT, FF). -/
def isWS (c : Char) : Bool :=
  c = ' ' || c = '\t' || c = '\n' || c = '\r' || c = '\x0b' || c = '\x0c'

/-- ASCII uppercase, as JS `toUpperCase` acts on ASCII letters. -/
def upChar (c : Char) : Char :=
  if 'a' ≤ c && c ≤ 'z' then Char.ofNat (c.toNat - 32) else c

/-- ASCII lowercase, as JS `toLowerCase` acts on ASCII letters. -/
def loChar (c : Char) : Char :=
  if 'A' ≤ c && c ≤ 'Z' then Char.ofNat (c.toNat + 32) else c

/-- `s.toUpperCase()`. -/
def upperStr (s : JStr) : JStr := s.map upChar

/-- `s.toLowerCase()`. -/
def lowerStr (s : JStr) : JStr := s.map loChar

/-- `s.trim()`: strip leading and trailing whitespace. -/
def jsTrim (s : JStr) : JStr :=
  ((s.dropWhile isWS).reverse.dropWhile isWS).reverse

/-- Helper for `.replace(/\s+/g, ' ')`: the flag records whether the
previous character was whitespace (so a run collapses to one space). -/
def collapseGo : Bool → List Char → List Char
  | _, [] => []
  | b, c :: rest =>
      if isWS c then
        if b then collapseGo true rest else ' ' :: collapseGo true rest
      else c :: collapseGo false rest

/-- `sql.trim().replace(/\s+/g, ' ')` — the normalisation at the top of
`parseSQL`. -/
def normalize (s : JStr) : JStr := collapseGo false (jsTrim s)

/-- `s.split(sep)` (JS string split on a single character). -/
def splitChar (sep : Char) : List Char → List JStr
  | [] => [[]]
  | c :: rest =>
      match splitChar sep rest with
      | [] => [[]]
      | piece :: pieces =>
          if c = sep then [] :: piece :: pieces else (c :: piece) :: pieces

/-- The words of a normalised query (separated by single spaces). -/
def wordsOf (s : JStr) : List JStr := splitChar ' ' s

/-- Join words with single spaces (inverse of `wordsOf` on clean words). -/
def joinSp : List JStr → JStr
  | [] => []
  | [w] => w
  | w :: rest => w ++ ' ' :: joinSp rest

/-- Case-insensitive equality of a word and a keyword. -/
def eqCI (w kw : JStr) : Bool := upperStr w == kw

/-- Case-insensitive `kw` is a prefix of `w` (keyword given uppercase). -/
def startsCI (w kw : JStr) : Bool := List.isPrefixOf kw (upperStr w)

/-- Case-insensitive `kw` is a suffix of `w` (keyword given uppercase). -/
def endsCI (w kw : JStr) : Bool := List.isSuffixOf kw (upperStr w)

/-- ASCII decimal digit (regex `\d`). -/
def isDig (c : Char) : Bool := '0' ≤ c && c ≤ '9'

/-- Value of a string of decimal digits. -/
def digitsVal (s : JStr) : Nat :=
  s.foldl (fun acc c => acc * 10 + (c.toNat - 48)) 0

end FsSql

namespace FsSql

/-! ## JS numeric semantics (`isNaN(str)` / `parseFloat`) -/

/-- A JS number as the translator observes it: the decimal literal value
`m * 10^e`, or NaN / ±Infinity.  (Float64 rounding is not modelled; no
claim depends on it.) -/
inductive JsNum
  | nan
  | posInf
  | negInf
  | num (m : Int) (e : Int)
deriving DecidableEq, Repr

def isHexDig (c : Char) : Bool :=
  isDig c || ('a' ≤ c && c ≤ 'f') || ('A' ≤ c && c ≤ 'F')

def isOctDig (c : Char) : Bool := '0' ≤ c && c ≤ '7'

def isBinDig (c : Char) : Bool := c = '0' || c = '1'

/-- Nonempty all-digit string. -/
def allDigits1 (t : JStr) : Bool := !t.isEmpty && t.all isDig

/-- Exponent part of the `StringNumericLiteral` grammar: empty, or
`[eE][+-]?digits`. -/
def expOk : JStr → Bool
  | [] => true
  | c :: rest =>
      (c = 'e' || c = 'E') &&
        (match rest with
         | '+' :: ds => allDigits1 ds
         | '-' :: ds => allDigits1 ds
         | ds => allDigits1 ds)

/-- Unsigned decimal literal: `digits [. digits] [exp]` or `. digits [exp]`. -/
def decLit (t : JStr) : Bool :=
  let ip := t.takeWhile isDig
  let r1 := t.drop ip.length
  match r1 with
  | '.' :: r2 =>
      let fp := r2.takeWhile isDig
      (!ip.isEmpty || !fp.isEmpty) && expOk (r2.drop fp.length)
  | _ => !ip.isEmpty && expOk r1

/-- After an optional sign: `Infinity` or a decimal literal. -/
def numAfterSign (t : JStr) : Bool :=
  t == str ("Infinity") || decLit t

/-- A `0x` / `0o` / `0b` radix literal?  `some valid` when the string has
that shape (sign not allowed before these in JS), `none` otherwise. -/
def radixLit : JStr → Option Bool
  | '0' :: m :: rest =>
      if m = 'x' || m = 'X' then some (!rest.isEmpty && rest.all isHexDig)
      else if m = 'o' || m = 'O' then some (!rest.isEmpty && rest.all isOctDig)
      else if m = 'b' || m = 'B' then some (!rest.isEmpty && rest.all isBinDig)
      else none
  | _ => none

/-- `!isNaN(s)` for a JS string `s`: whether `Number(s)` is not NaN. -/
def jsIsNumericString (s : JStr) : Bool :=
  let t := jsTrim s
  match t with
  | [] => true
  | c :: rest =>
      if c = '+' || c = '-' then numAfterSign rest
      else
        match radixLit t with
        | some ok => ok
        | none => numAfterSign t

def leadDigits (t : JStr) : JStr := t.takeWhile isDig

/-- Exponent value readable at the head of `t` (0 when no valid
`[eE][+-]?digits` prefix is present — `parseFloat` drops a dangling `e`). -/
def expValAt : JStr → Int
  | [] => 0
  | c :: rest =>
      if c = 'e' || c = 'E' then
        match rest with
        | '+' :: ds => if (leadDigits ds).isEmpty then 0 else (digitsVal (leadDigits ds) : Int)
        | '-' :: ds => if (leadDigits ds).isEmpty then 0 else -(digitsVal (leadDigits ds) : Int)
        | ds => if (leadDigits ds).isEmpty then 0 else (digitsVal (leadDigits ds) : Int)
      else 0

/-- `parseFloat` after sign handling: longest valid numeric prefix. -/
def jsParseFloatCore (t : JStr) : JsNum :=
  if List.isPrefixOf (str ("Infinity")) t then .posInf
  else
    let ip := leadDigits t
    let r1 := t.drop ip.length
    match r1 with
    | '.' :: r2 =>
        let fp := leadDigits r2
        if ip.isEmpty && fp.isEmpty then .nan
        else .num (Int.ofNat (digitsVal (ip ++ fp)))
                  (expValAt (r2.drop fp.length) - (fp.length : Int))
    | _ => if ip.isEmpty then .nan else .num (Int.ofNat (digitsVal ip)) (expValAt r1)

def jsNegNum : JsNum → JsNum
  | .nan => .nan
  | .posInf => .negInf
  | .negInf => .posInf
  | .num m e => .num (-m) e

/-- JS `parseFloat(s)`. -/
def jsParseFloat (s : JStr) : JsNum :=
  let t := s.dropWhile isWS
  match t with
  | '-' :: rest => jsNegNum (jsParseFloatCore rest)
  | '+' :: rest => jsParseFloatCore rest
  | _ => jsParseFloatCore t

/-! ## `parseTimestamp` (sql-translator.js lines 355-378) -/

/-- The `Date` produced by `new Date` on one of the four accepted textual
shapes, recorded as its civil components plus whether the instant is
anchored in UTC (`Z` / bare ISO date) or local time. -/
structure JsDate where
  y : Nat
  mo : Nat
  d : Nat
  h : Nat
  mi : Nat
  se : Nat
  ms : Nat
  utc : Bool
deriving DecidableEq, Repr

def isLeap (y : Nat) : Bool := y % 4 = 0 && (y % 100 ≠ 0 || y % 400 = 0)

def monthLen (y mo : Nat) : Nat :=
  if mo = 2 then (if isLeap y then 29 else 28)
  else if mo = 4 || mo = 6 || mo = 9 || mo = 11 then 30
  else 31

/-- Calendar validity of a year-month-day triple (as V8 enforces for the
shapes matched here). -/
def ymdValid (y mo d : Nat) : Bool :=
  1 ≤ mo && mo ≤ 12 && 1 ≤ d && d ≤ monthLen y mo

/-- Time-of-day validity for ISO strings (V8 accepts `24:00:00` exactly). -/
def hmsValid (h mi se ms : Nat) : Bool :=
  (h < 24 || (h = 24 && mi = 0 && se = 0 && ms = 0)) && mi ≤ 59 && se ≤ 59

/-- Read exactly `n` decimal digits. -/
def takeDigitsN (n : Nat) (t : JStr) : Option (Nat × JStr) :=
  let ds := t.take n
  if ds.length = n && ds.all isDig then some (digitsVal ds, t.drop n) else none

def expectCh (c : Char) : JStr → Option JStr
  | c' :: rest => if c' = c then some rest else none
  | [] => none

/-- `^\d{4}-\d{2}-\d{2}T\d{2}:\d{2}:\d{2}(\.\d{3})?Z?$` plus validity. -/
def shapeIsoDateTime (t : JStr) : Option JsDate := do
  let (y, t) ← takeDigitsN 4 t
  let t ← expectCh '-' t
  let (mo, t) ← takeDigitsN 2 t
  let t ← expectCh '-' t
  let (d, t) ← takeDigitsN 2 t
  let t ← expectCh 'T' t
  let (h, t) ← takeDigitsN 2 t
  let t ← expectCh ':' t
  let (mi, t) ← takeDigitsN 2 t
  let t ← expectCh ':' t
  let (se, t) ← takeDigitsN 2 t
  let (ms, t) ←
    match t with
    | '.' :: t2 => takeDigitsN 3 t2
    | _ => some (0, t)
  let (isUtc, t) :=
    match t with
    | 'Z' :: t2 => (true, t2)
    | _ => (false, t)
  if t.isEmpty && ymdValid y mo d && hmsValid h mi se ms then
    some ⟨y, mo, d, h, mi, se, ms, isUtc⟩
  else none

/-- `^\d{4}-\d{2}-\d{2}$` plus validity (bare ISO date: UTC midnight). -/
def shapeIsoDate (t : JStr) : Option JsDate := do
  let (y, t) ← takeDigitsN 4 t
  let t ← expectCh '-' t
  let (mo, t) ← takeDigitsN 2 t
  let t ← expectCh '-' t
  let (d, t) ← takeDigitsN 2 t
  if t.isEmpty && ymdValid y mo d then some ⟨y, mo, d, 0, 0, 0, 0, true⟩ else none

/-- `^\d{2}-\d{2}-\d{4}$` plus validity (legacy MM-DD-YYYY: local midnight). -/
def shapeUsDate (t : JStr) : Option JsDate := do
  let (mo, t) ← takeDigitsN 2 t
  let t ← expectCh '-' t
  let (d, t) ← takeDigitsN 2 t
  let t ← expectCh '-' t
  let (y, t) ← takeDigitsN 4 t
  if t.isEmpty && ymdValid y mo d then some ⟨y, mo, d, 0, 0, 0, 0, false⟩ else none

def monthNames : List (JStr × Nat) :=
  [(str ("JANUARY"), 1), (str ("FEBRUARY"), 2), (str ("MARCH"), 3),
   (str ("APRIL"), 4), (str ("MAY"), 5), (str ("JUNE"), 6),
   (str ("JULY"), 7), (str ("AUGUST"), 8), (str ("SEPTEMBER"), 9),
   (str ("OCTOBER"), 10), (str ("NOVEMBER"), 11), (str ("DECEMBER"), 12)]

/-- Strip a case-insensitive keyword prefix. -/
def dropCI (kw : JStr) (t : JStr) : Option JStr :=
  if List.isPrefixOf kw (upperStr t) then some (t.drop kw.length) else none

def findMonth (t : JStr) : Option (Nat × JStr) :=
  monthNames.foldr
    (fun (nm, v) acc =>
      match dropCI nm t with
      | some rest => some (v, rest)
      | none => acc)
    none

/-- `^(January|...|December)\s+\d{1,2},?\s+\d{4}$` (case-insensitive) plus
validity (local midnight). -/
def shapeLongDate (t : JStr) : Option JsDate := do
  let (mo, t) ← findMonth t
  let ws1 := t.takeWhile isWS
  let t := t.drop ws1.length
  if ws1.isEmpty then none
  else
    let ds := leadDigits t
    if ds.isEmpty || 2 < ds.length then none
    else
      let d := digitsVal ds
      let t := t.drop ds.length
      let t := match t with | ',' :: t2 => t2 | _ => t
      let ws2 := t.takeWhile isWS
      let t := t.drop ws2.length
      if ws2.isEmpty then none
      else
        match takeDigitsN 4 t with
        | some (y, rest) =>
            if rest.isEmpty && ymdValid y mo d then
              some ⟨y, mo, d, 0, 0, 0, 0, false⟩
            else none
        | none => none

/-- `parseTimestamp(timestampStr)`: try the four shapes in order; a shape
match additionally needs `new Date` to yield a valid instant (the shapes
are mutually exclusive, so folding validity into each shape is faithful). -/
def parseTimestamp (ts : JStr) : Option JsDate :=
  match shapeIsoDateTime ts with
  | some d => some d
  | none =>
      match shapeIsoDate ts with
      | some d => some d
      | none =>
          match shapeUsDate ts with
          | some d => some d
          | none => shapeLongDate ts

/-! ## `parseValue` (lines 313-348) and the field aliaser (lines 107-109) -/

/-- The typed value a literal resolves to. -/
inductive Value
  | vStr (s : JStr)
  | vNum (n : JsNum)
  | vBool (b : Bool)
  | vNull
  | vTimestamp (d : JsDate)
deriving DecidableEq, Repr

/-- `convertIdToName(fieldName)`. -/
def convertIdToName (fieldName : JStr) : JStr :=
  if fieldName = str ("id") then str ("__name__") else fieldName

/-- Does the trimmed token carry one layer of matching quotes? -/
def quotedForm (t : JStr) : Bool :=
  (t.head? = some '"' && t.getLast? = some '"') ||
  (t.head? = some '\'' && t.getLast? = some '\'')

/-- `parseValue(valueStr)` (lines 313-348), byte-for-byte: quoted literals
try timestamp, then number, then fall back to string; bare literals try
number, then booleans, then null, then string. -/
def parseValue (valueStr : JStr) : Value :=
  let trimmed := jsTrim valueStr
  if quotedForm trimmed then
    let unquoted := (trimmed.drop 1).dropLast
    match parseTimestamp unquoted with
    | some d => .vTimestamp d
    | none =>
        if jsIsNumericString unquoted && !unquoted.isEmpty then
          .vNum (jsParseFloat unquoted)
        else .vStr unquoted
  else if jsIsNumericString trimmed && !trimmed.isEmpty then
    .vNum (jsParseFloat trimmed)
  else if lowerStr trimmed = str ("true") then .vBool true
  else if lowerStr trimmed = str ("false") then .vBool false
  else if lowerStr trimmed = str ("null") then .vNull
  else .vStr trimmed

end FsSql

namespace FsSql

/-! ## `parseSelectFields` (lines 116-162) -/

/-- A select-list item: the literal string `'*'`, the `COUNT(*)`
aggregation object, a `toDate`/`prettyJson` function object, or a plain
field object. -/
inductive SelItem
  | star
  | aggregation (fn : JStr) (fld : JStr)
  | func (fn : JStr) (fld : JStr)
  | field (f : JStr)
deriving DecidableEq, Repr

/-- `^name\(([^)]+)\)$` (case-insensitive) for a fixed `name(`: the
argument between the opening parenthesis and a final `)`, containing no
`)`. -/
def funcArg (nmOpen : JStr) (t : JStr) : Option JStr :=
  if List.isPrefixOf nmOpen (upperStr t) && t.getLast? = some ')' then
    let arg := (t.drop nmOpen.length).dropLast
    if !arg.isEmpty && !arg.contains ')' then some arg else none
  else none

/-- One comma-separated select item (the `map` body of lines 133-161). -/
def parseOneField (fld : JStr) : SelItem :=
  let t := jsTrim fld
  match funcArg (str ("TODATE(")) t with
  | some arg => .func (str ("toDate")) (convertIdToName (jsTrim arg))
  | none =>
      match funcArg (str ("PRETTYJSON(")) t with
      | some arg => .func (str ("prettyJson")) (convertIdToName (jsTrim arg))
      | none => .field (convertIdToName t)

/-- `parseSelectFields(fieldsStr)` (lines 116-162). -/
def parseSelectFields (fieldsStr : JStr) : List SelItem :=
  let trimmed := jsTrim fieldsStr
  if upperStr trimmed = str ("COUNT(*)") then
    [.aggregation (str ("COUNT")) (str ("*"))]
  else if trimmed = str ("*") then [.star]
  else ((splitChar ',' fieldsStr).map parseOneField)

/-! ## `tokenizeWhereClause` (lines 183-233) -/

/-- State of the character scan: emitted tokens, the token being built,
and the quote-tracking pair. -/
structure ScanSt where
  tokens : List JStr
  current : JStr
  inQuotes : Bool
  quoteChar : Option Char
deriving DecidableEq, Repr

/-- One iteration of the scan loop (lines 189-208). -/
def scanStep (st : ScanSt) (c : Char) : ScanSt :=
  if !st.inQuotes && (c = '"' || c = '\'') then
    { st with inQuotes := true, quoteChar := some c, current := st.current ++ [c] }
  else if st.inQuotes && some c = st.quoteChar then
    { st with inQuotes := false, quoteChar := none, current := st.current ++ [c] }
  else if !st.inQuotes && (c = ' ' || c = '\t') then
    if !(jsTrim st.current).isEmpty then
      { st with tokens := st.tokens ++ [jsTrim st.current], current := [] }
    else st
  else { st with current := st.current ++ [c] }

def isIdentStart (c : Char) : Bool :=
  ('a' ≤ c && c ≤ 'z') || ('A' ≤ c && c ≤ 'Z') || c = '_'

def isIdentCh (c : Char) : Bool := isIdentStart c || isDig c

def isOpCh (c : Char) : Bool := c = '=' || c = '!' || c = '<' || c = '>'

/-- The post-pass on one token (lines 216-229): split a glued
`identifier[=!<>]+value` per `^([a-zA-Z_][a-zA-Z0-9_]*)([=!<>]+)(.*)$`. -/
def splitIdentOp (t : JStr) : List JStr :=
  match t with
  | c :: rest =>
      if isIdentStart c then
        let identTail := rest.takeWhile isIdentCh
        let r1 := rest.drop identTail.length
        let ops := r1.takeWhile isOpCh
        let r2 := r1.drop ops.length
        if !ops.isEmpty then
          (c :: identTail) :: ops :: (if !r2.isEmpty then [r2] else [])
        else [t]
      else [t]
  | [] => [[]]

/-- `tokenizeWhereClause(whereStr)` (lines 183-233): quote-aware
whitespace split, then the glued-operator post-pass. -/
def tokenizeWhereClause (whereStr : JStr) : List JStr :=
  let st := whereStr.foldl scanStep ⟨[], [], false, none⟩
  let tokens :=
    if !(jsTrim st.current).isEmpty then st.tokens ++ [jsTrim st.current]
    else st.tokens
  (tokens.map splitIdentOp).flatten

/-! ## The predicate tree builder (lines 240-306) -/

/-- The error taxonomy the translator throws (each constructor is one
`throw new Error(...)` site of sql-translator.js). -/
inductive Err
  | onlySelect
  | invalidSelect
  | invalidFrom
  | invalidLimit
  | countOrderBy
  | malformedPredicate
  | invalidCondition
  | unsupportedOr
  | unsupportedOperator (op : JStr)
deriving DecidableEq, Repr

/-- A predicate tree node: a leaf condition or a logical AND/OR node. -/
inductive Cond
  | condition (field : JStr) (op : JStr) (value : Value)
  | logical (op : JStr) (l r : Cond)
deriving DecidableEq, Repr

/-- `parseSimpleCondition(tokens)` (lines 291-306). -/
def parseSimpleCondition (tokens : List JStr) : Except Err Cond :=
  match tokens with
  | f :: op :: v :: _ => .ok (.condition (convertIdToName f) op (parseValue v))
  | _ => .error .invalidCondition

/-- The scan of lines 253-259: first index `i` with `1 ≤ i < length - 1`
whose token uppercases to `AND` or `OR`, together with that uppercased
token. -/
def findConnGo (lastIdx : Nat) : Nat → List JStr → Option (Nat × JStr)
  | _, [] => none
  | i, t :: rest =>
      if lastIdx ≤ i then none
      else if upperStr t = str ("AND") || upperStr t = str ("OR") then
        some (i, upperStr t)
      else findConnGo lastIdx (i + 1) rest

def findConn (ts : List JStr) : Option (Nat × JStr) :=
  findConnGo (ts.length - 1) 1 (ts.drop 1)

/-- `parseConditionTokens` for nonempty token lists, with an explicit
fuel argument standing for the recursion depth (the recursion strictly
shrinks the token list, so `fuel = length` always suffices —
`parseCondAux_fuel` below; the `fuel = 0` branch is unreachable under
that bound). -/
def parseCondAux : Nat → List JStr → Except Err Cond
  | 0, _ => .error .malformedPredicate
  | fuel + 1, ts =>
      if ts.length = 3 then parseSimpleCondition ts
      else
        match findConn ts with
        | none => .error .malformedPredicate
        | some (i, op) =>
            match parseCondAux fuel (ts.take i) with
            | .error e => .error e
            | .ok l =>
                match parseCondAux fuel (ts.drop (i + 1)) with
                | .error e => .error e
                | .ok r => .ok (.logical op l r)

/-- `parseConditionTokens(tokens)` (lines 240-284): `null` on an empty
token list, otherwise the recursive first-connective split. -/
def parseConditionTokens (tokens : List JStr) : Except Err (Option Cond) :=
  match tokens with
  | [] => .ok none
  | _ => (parseCondAux tokens.length tokens).map some

/-- `parseWhereConditions(whereStr)` (lines 169-176). -/
def parseWhereConditions (whereStr : JStr) : Except Err (Option Cond) :=
  parseConditionTokens (tokenizeWhereClause whereStr)

end FsSql

namespace FsSql

/-! ## The clause-extraction regexes of `parseSQL` (lines 29-100)

Each regex runs on `normalizedSQL`, whose whitespace runs are single
spaces, so we model it on the word list `wordsOf normalizedSQL` with
JS leftmost-match / lazy-quantifier semantics. -/

/-- Lazy scan of `^SELECT\s+(.+?)\s+FROM\s+`: after the leading `SELECT`
word, the shortest nonempty word span followed by a whole word `FROM`
that itself has a successor. -/
def selGo (acc : List JStr) : List JStr → Option (List JStr)
  | [] => none
  | w :: rest =>
      if eqCI w (str ("FROM")) && !rest.isEmpty && !acc.isEmpty then some acc
      else selGo (acc ++ [w]) rest

def selectFieldsWords : List JStr → Option (List JStr)
  | [] => none
  | w0 :: rest => if eqCI w0 (str ("SELECT")) then selGo [] rest else none

/-- Does `\s+ORDER\s+BY` match here: `w` is the whole word `ORDER` and the
next word starts with `BY`? -/
def isOrderByAt (w : JStr) : List JStr → Bool
  | w2 :: _ => eqCI w (str ("ORDER")) && startsCI w2 (str ("BY"))
  | [] => false

/-- Lazy capture of `([^\s]+(?:\s+[^\s]+)*?)` up to
`(?:\s+WHERE|\s+ORDER\s+BY|\s+LIMIT|\s*$)` (the FROM terminators). -/
def fromCapGo (acc : List JStr) : List JStr → List JStr
  | [] => acc
  | w :: rest =>
      if startsCI w (str ("WHERE")) || isOrderByAt w rest || startsCI w (str ("LIMIT")) then
        acc
      else fromCapGo (acc ++ [w]) rest

/-- Leftmost match of
`FROM\s+([^\s]+(?:\s+[^\s]+)*?)(?:\s+WHERE|\s+ORDER\s+BY|\s+LIMIT|\s*$)`:
the first word ending (case-insensitively) in `FROM` and having a
successor starts the capture. -/
def fromSearch : List JStr → Option (List JStr)
  | [] => none
  | w :: rest =>
      if endsCI w (str ("FROM")) && !rest.isEmpty then
        some (match rest with
              | w1 :: rest' => fromCapGo [w1] rest'
              | [] => [])
      else fromSearch rest

/-- Lazy capture of `(.+?)` up to `(?:\s+ORDER\s+BY|\s+LIMIT|\s*$)`
(the WHERE terminators). -/
def whereCapGo (acc : List JStr) : List JStr → List JStr
  | [] => acc
  | w :: rest =>
      if isOrderByAt w rest || startsCI w (str ("LIMIT")) then acc
      else whereCapGo (acc ++ [w]) rest

/-- Leftmost match of `WHERE\s+(.+?)(?:\s+ORDER\s+BY|\s+LIMIT|\s*$)`. -/
def whereSearch : List JStr → Option (List JStr)
  | [] => none
  | w :: rest =>
      if endsCI w (str ("WHERE")) && !rest.isEmpty then
        some (match rest with
              | w1 :: rest' => whereCapGo [w1] rest'
              | [] => [])
      else whereSearch rest

/-- After `(ASC|DESC)` the regex needs `\s+LIMIT` or end of input. -/
def limitOrEnd : List JStr → Bool
  | [] => true
  | n :: _ => startsCI n (str ("LIMIT"))

/-- Leftmost match of
`ORDER\s+BY\s+([^\s]+)\s+(ASC|DESC)(?:\s+LIMIT|\s*$)`: a word ending in
`ORDER`, a whole word `BY`, the field word, a whole word `ASC`/`DESC`,
then `LIMIT`-or-end; on failure the scan resumes at the next word. -/
def orderSearch : List JStr → Option (JStr × JStr)
  | [] => none
  | w :: rest =>
      match rest with
      | by2 :: fld :: dir :: rest' =>
          if endsCI w (str ("ORDER")) && eqCI by2 (str ("BY")) &&
              (eqCI dir (str ("ASC")) || eqCI dir (str ("DESC"))) &&
              limitOrEnd rest' then
            some (fld, upperStr dir)
          else orderSearch rest
      | _ => orderSearch rest

def digHead : JStr → Bool
  | c :: _ => isDig c
  | [] => false

/-- Leftmost match of `LIMIT\s+(\d+)`: a word ending in `LIMIT` whose
successor starts with a digit; the capture is the successor's maximal
digit run. -/
def limitSearch : List JStr → Option JStr
  | [] => none
  | w :: rest =>
      match rest with
      | v :: _ =>
          if endsCI w (str ("LIMIT")) && digHead v then some (leadDigits v)
          else limitSearch rest
      | [] => none

/-! ## `parseSQL` (lines 29-100) -/

/-- The parsed query object returned by `parseSQL`. -/
structure Parsed where
  select : List SelItem
  fromPath : JStr
  whereC : Option Cond
  orderBy : Option (JStr × JStr)
  limit : Option Int
deriving DecidableEq, Repr

/-- The `isCountQuery` test (lines 82-84 and 436-438): a single select
item that is a COUNT aggregation. -/
def isCountSelect : List SelItem → Bool
  | [SelItem.aggregation fn _] => fn = str ("COUNT")
  | _ => false

/-- `parseSQL(sql)` (lines 29-100). -/
def parseSQL (sql : JStr) : Except Err Parsed :=
  let n := normalize sql
  if !(List.isPrefixOf (str ("SELECT")) (upperStr n)) then .error .onlySelect
  else
    let ws := wordsOf n
    match selectFieldsWords ws with
    | none => .error .invalidSelect
    | some fws =>
        let selectFields := parseSelectFields (joinSp fws)
        match fromSearch ws with
        | none => .error .invalidFrom
        | some pws =>
            let collectionPath := jsTrim (joinSp pws)
            let wcE : Except Err (Option Cond) :=
              match whereSearch ws with
              | none => .ok none
              | some cws => parseWhereConditions (joinSp cws)
            match wcE with
            | .error e => .error e
            | .ok whereConditions =>
                let orderBy :=
                  (orderSearch ws).map (fun p => (convertIdToName p.1, p.2))
                let limE : Except Err (Option Int) :=
                  match limitSearch ws with
                  | none => .ok none
                  | some ds =>
                      let l : Int := (digitsVal ds : Int)
                      if l < 0 then .error .invalidLimit else .ok (some l)
                match limE with
                | .error e => .error e
                | .ok limit =>
                    if isCountSelect selectFields && orderBy.isSome then
                      .error .countOrderBy
                    else
                      .ok ⟨selectFields, collectionPath, whereConditions, orderBy, limit⟩

/-! ## The plan translator (`executeQuery` lines 429-460,
`executeCountQuery` lines 542-560, `applyWhereConditions` lines 568-589,
`applySimpleCondition` lines 597-616) -/

/-- The scope a backend query is opened on.  The backing store offers
both plain collections and collection groups; `executeQuery` line 433
picks which. -/
inductive Scope
  | collection (path : JStr)
  | collectionGroup (name : JStr)
deriving DecidableEq, Repr

/-- An abstract backend query: the scope plus the accumulated filter,
order and limit calls. -/
structure FsQuery where
  scope : Scope
  filters : List (JStr × JStr × Value)
  order : Option (JStr × JStr)
  limitN : Option Int
deriving DecidableEq, Repr

/-- The operator table of `applySimpleCondition` (lines 600-615). -/
def fsOpOf (op : JStr) : Option JStr :=
  if op = str ("=") then some (str ("=="))
  else if op = str ("!=") then some (str ("!="))
  else if op = str (">") then some (str (">"))
  else if op = str (">=") then some (str (">="))
  else if op = str ("<") then some (str ("<"))
  else if op = str ("<=") then some (str ("<="))
  else none

/-- `applySimpleCondition(query, condition)` (lines 597-616). -/
def applySimpleCondition (q : FsQuery) (f op : JStr) (v : Value) : Except Err FsQuery :=
  match fsOpOf op with
  | some fop => .ok { q with filters := q.filters ++ [(f, fop, v)] }
  | none => .error (.unsupportedOperator op)

/-- `applyWhereConditions` on a non-null node (lines 571-588): leaves add
one filter; `AND` applies the left side then the right side to the
result; `OR` throws; any other logical operator falls through returning
the query unchanged. -/
def applyCond (q : FsQuery) : Cond → Except Err FsQuery
  | .condition f op v => applySimpleCondition q f op v
  | .logical op l r =>
      if op = str ("AND") then
        match applyCond q l with
        | .error e => .error e
        | .ok q1 => applyCond q1 r
      else if op = str ("OR") then .error .unsupportedOr
      else .ok q

/-- `applyWhereConditions(query, conditions)` (lines 568-589), including
the `if (!conditions) return query` null guard. -/
def applyWhereConditions (q : FsQuery) : Option Cond → Except Err FsQuery
  | none => .ok q
  | some c => applyCond q c

/-- What `executeQuery` asks the backend to run: a row query or a
server-side aggregate count. -/
inductive QueryAction
  | runRows (q : FsQuery)
  | runCount (q : FsQuery)
deriving DecidableEq, Repr

/-- The query-building part of `executeQuery` (lines 429-458): open a
plain collection on `parsed.from`; on the COUNT path apply only the
filters; otherwise apply filters, `ORDER BY`, and `LIMIT` — the limit via
the truthiness test `if (parsed.limit)`, under which a limit of `0` is
not applied. -/
def buildQuery (p : Parsed) : Except Err QueryAction :=
  let q0 : FsQuery := ⟨.collection p.fromPath, [], none, none⟩
  if isCountSelect p.select then
    match applyWhereConditions q0 p.whereC with
    | .error e => .error e
    | .ok q1 => .ok (.runCount q1)
  else
    match applyWhereConditions q0 p.whereC with
    | .error e => .error e
    | .ok q1 =>
        let q2 :=
          match p.orderBy with
          | some (f, d) => { q1 with order := some (f, lowerStr d) }
          | none => q1
        let q3 :=
          match p.limit with
          | some l => if l = 0 then q2 else { q2 with limitN := some l }
          | none => q2
        .ok (.runRows q3)

end FsSql

namespace FsSql

/-! ## `formatToDate` (lines 385-421) and result projection (lines 463-531) -/

/-- Local-time civil components of an instant, as read off a JS `Date` by
`getFullYear`/`getMonth`/... in the process's time zone. -/
structure JsLocal where
  y : Int
  mo : Nat
  d : Nat
  h : Nat
  mi : Nat
  se : Nat
deriving DecidableEq, Repr

/-- A document field value as Firestore hands it back. -/
inductive DocVal
  | vNull
  | vBool (b : Bool)
  | vNum (n : Int)
  | vStr (s : JStr)
  | vDate (l : JsLocal)
  | vTimestamp (l : JsLocal)
deriving DecidableEq, Repr

/-- JS runtime builtins the projection code calls: `new Date(string)`
(returning the local components, or `none` for an Invalid Date),
`new Date(number)`'s local components, and `JSON.stringify(·, null, 2)`. -/
structure JsRuntime where
  parseDateStr : JStr → Option JsLocal
  msToLocal : Int → JsLocal
  stringifyVal : DocVal → JStr
  stringifyDoc : List (JStr × DocVal) → JStr

/-- `String(n).padStart(2, '0')`. -/
def pad2 (n : Nat) : JStr :=
  let s := Nat.toDigits 10 n
  List.replicate (2 - s.length) '0' ++ s

/-- `String(i)` for the year. -/
def intChars (i : Int) : JStr :=
  if i < 0 then '-' :: Nat.toDigits 10 i.natAbs else Nat.toDigits 10 i.toNat

/-- `s.slice(-2)`. -/
def takeLast2 (s : JStr) : JStr := s.drop (s.length - 2)

/-- Lines 413-420: format local components as `MM/DD/YY hh:mm:ss`. -/
def fmtDate (l : JsLocal) : JStr :=
  pad2 l.mo ++ [ '/' ] ++ pad2 l.d ++ [ '/' ] ++ takeLast2 (intChars l.y) ++ [ ' ' ] ++
  pad2 l.h ++ [ ':' ] ++ pad2 l.mi ++ [ ':' ] ++ pad2 l.se

/-- `new Date(ms)` is valid iff `|ms| ≤ 8.64e15`. -/
def msInRange (ms : Int) : Bool := ms.natAbs ≤ 8640000000000000

/-- `formatToDate(value)` (lines 385-421): falsy values (null, false, 0,
the empty string) return unchanged; `Date`s, Firestore `Timestamp`s,
parseable strings and in-range numbers (seconds when ≤ 1e12, else
milliseconds) format as `MM/DD/YY hh:mm:ss`; everything else returns
unchanged. -/
def formatToDate (rt : JsRuntime) : DocVal → DocVal
  | .vNull => .vNull
  | .vBool false => .vBool false
  | .vNum 0 => .vNum 0
  | .vStr [] => .vStr []
  | .vDate l => .vStr (fmtDate l)
  | .vTimestamp l => .vStr (fmtDate l)
  | .vStr s =>
      match rt.parseDateStr s with
      | some l => .vStr (fmtDate l)
      | none => .vStr s
  | .vNum n =>
      let ms := if n > 1000000000000 then n else n * 1000
      if msInRange ms then .vStr (fmtDate (rt.msToLocal ms))
      else .vNum n
  | .vBool true => .vBool true

/-- The branch structure of `formatToDate` that produces a formatted
string: which values are date-like, and the local components used. -/
def toDateLocal (rt : JsRuntime) : DocVal → Option JsLocal
  | .vDate l => some l
  | .vTimestamp l => some l
  | .vStr [] => none
  | .vStr s => rt.parseDateStr s
  | .vNum 0 => none
  | .vNum n =>
      let ms := if n > 1000000000000 then n else n * 1000
      if msInRange ms then some (rt.msToLocal ms) else none
  | _ => none

/-- A value is date-like when `formatToDate` formats it. -/
def dateLike (rt : JsRuntime) (v : DocVal) : Bool := (toDateLocal rt v).isSome

/-- First-match association lookup (JS object property read). -/
def getVal : List (JStr × DocVal) → JStr → Option DocVal
  | [], _ => none
  | (k, v) :: rest, k' => if k = k' then some v else getVal rest k'

/-- `data.hasOwnProperty(k)`. -/
def hasOwn (d : List (JStr × DocVal)) (k : JStr) : Bool := (getVal d k).isSome

/-- JS property assignment `obj[k] = v`: overwrite in place, or append. -/
def setKey : List (JStr × DocVal) → JStr → DocVal → List (JStr × DocVal)
  | [], k, v => [(k, v)]
  | (k', v') :: rest, k, v =>
      if k' = k then (k, v) :: rest else (k', v') :: setKey rest k v

/-- `getVal d k` with the code's subsequent use after a `hasOwnProperty`
guard (`data[field]`; `.vNull` is never reached under the guard). -/
def getValD (d : List (JStr × DocVal)) (k : JStr) : DocVal :=
  (getVal d k).getD .vNull

/-- The per-item body of the projection loop (lines 476-526), folding the
select items over the growing `filteredData` object. -/
def projectItem (rt : JsRuntime) (includeId : Bool) (docId : JStr)
    (data : List (JStr × DocVal)) (fd : List (JStr × DocVal)) :
    SelItem → List (JStr × DocVal)
  | .star =>
      if str ("*") = str ("__name__") && includeId then
        setKey fd (str ("*")) (.vStr docId)
      else if hasOwn data (str ("*")) then
        setKey fd (str ("*")) (getValD data (str ("*")))
      else fd
  | .aggregation _ _ => fd
  | .field f =>
      if f = str ("__name__") && includeId then setKey fd f (.vStr docId)
      else if hasOwn data f then setKey fd f (getValD data f)
      else fd
  | .func fn f =>
      if fn = str ("toDate") then
        let dn := str ("toDate(") ++ f ++ [ ')' ]
        if f = str ("__name__") && includeId then setKey fd dn (.vStr docId)
        else if hasOwn data f then setKey fd dn (formatToDate rt (getValD data f))
        else setKey fd dn .vNull
      else if fn = str ("prettyJson") then
        let dn := str ("prettyJson(") ++ f ++ [ ')' ]
        if f = str ("*") || f = str ("__name__") then
          let fullDoc := if includeId then setKey data (str ("id")) (.vStr docId) else data
          setKey fd dn (.vStr (rt.stringifyDoc fullDoc))
        else if hasOwn data f then setKey fd dn (.vStr (rt.stringifyVal (getValD data f)))
        else setKey fd dn .vNull
      else fd

/-- The per-document result processing of `executeQuery` (lines 465-530):
merge the identity field when requested, return the whole document for
`SELECT *`, otherwise fold the select list into a projected row. -/
def processRow (rt : JsRuntime) (sel : List SelItem) (includeId : Bool)
    (docId : JStr) (data0 : List (JStr × DocVal)) : List (JStr × DocVal) :=
  let data := if includeId then setKey data0 (str ("__name__")) (.vStr docId) else data0
  if sel.contains .star then data
  else sel.foldl (projectItem rt includeId docId data) []

end FsSql

deriving instance DecidableEq for Except

namespace FsSql

/-- A word free of whitespace characters. -/
def noWS (w : JStr) : Bool := w.all (fun c => !isWS c)

/-- The select list of `SELECT id, toDate(createdAt) ...` after parsing. -/
def c8sel : List SelItem :=
  [SelItem.field (str ("__name__")), SelItem.func (str ("toDate")) (str ("createdAt"))]

/-- The projection key emitted for `toDate(createdAt)`. -/
def c8key : JStr := str ("toDate(createdAt)")

end FsSql

namespace FsSql

/-! ## Theorems -/

/-- Evaluation of `parseValue` on a quoted token: only timestamp, number
and string are attempted. -/
theorem parseValue_quoted (s : JStr) (hq : quotedForm (jsTrim s) = true) :
    parseValue s =
      (match parseTimestamp (((jsTrim s).drop 1).dropLast) with
       | some d => Value.vTimestamp d
       | none =>
           if (jsIsNumericString (((jsTrim s).drop 1).dropLast) &&
               !(((jsTrim s).drop 1).dropLast).isEmpty) = true then
             Value.vNum (jsParseFloat (((jsTrim s).drop 1).dropLast))
           else Value.vStr (((jsTrim s).drop 1).dropLast)) := by
  simp only [parseValue, hq, eq_self_iff_true, if_true]

/-- Evaluation of `parseValue` on an unquoted token: number, booleans,
null, then string; timestamps are not attempted. -/
theorem parseValue_bare (s : JStr) (hq : quotedForm (jsTrim s) = false) :
    parseValue s =
      (if (jsIsNumericString (jsTrim s) && !(jsTrim s).isEmpty) = true then
        Value.vNum (jsParseFloat (jsTrim s))
      else if lowerStr (jsTrim s) = str ("true") then Value.vBool true
      else if lowerStr (jsTrim s) = str ("false") then Value.vBool false
      else if lowerStr (jsTrim s) = str ("null") then Value.vNull
      else Value.vStr (jsTrim s)) := by
  simp only [parseValue, hq, Bool.false_eq_true, if_false]

/-- **C1, counterexample.**  The claim says the quoted literal `"true"`
resolves to Boolean; on the code it resolves to the string `true`,
because the quoted branch of `parseValue` never tries booleans. -/
theorem c1_quoted_true_counterexample :
    parseValue (str ("\"true\"")) = Value.vStr (str ("true")) ∧
    parseValue (str ("\"true\"")) ≠ Value.vBool true :=
  ⟨by decide, by decide⟩

/-- **C1 (amended).**  The Literal Value Resolver is total (every literal
resolves to exactly one of the five variants) and, after stripping one
layer of matching quotes, a quoted literal resolves with priority
timestamp > number > string — booleans and `null` are never attempted
for quoted literals — while a bare literal resolves with priority
number > boolean > null > string and is never a timestamp.  The quoted
literal `"2025-10-10"` resolves to a Timestamp, and the quoted literal
`"true"` resolves to the String `true`, not a Boolean. -/
theorem c1_literal_resolver :
    (∀ s : JStr, (∃ t, parseValue s = .vStr t) ∨ (∃ n, parseValue s = .vNum n) ∨
        (∃ b, parseValue s = .vBool b) ∨ parseValue s = .vNull ∨
        (∃ d, parseValue s = .vTimestamp d)) ∧
    (∀ s d, quotedForm (jsTrim s) = true →
        parseTimestamp (((jsTrim s).drop 1).dropLast) = some d →
        parseValue s = .vTimestamp d) ∧
    (∀ s, quotedForm (jsTrim s) = true →
        (∀ b, parseValue s ≠ .vBool b) ∧ parseValue s ≠ .vNull) ∧
    (∀ s, quotedForm (jsTrim s) = false → ∀ d, parseValue s ≠ .vTimestamp d) ∧
    parseValue (str ("\"2025-10-10\"")) = .vTimestamp ⟨2025, 10, 10, 0, 0, 0, 0, true⟩ ∧
    parseValue (str ("\"true\"")) = .vStr (str ("true")) := by
  refine ⟨?_, ?_, ?_, ?_, by decide, by decide⟩
  · intro s
    by_cases hq : quotedForm (jsTrim s) = true
    · rw [parseValue_quoted s hq]
      split
      · exact Or.inr (Or.inr (Or.inr (Or.inr ⟨_, rfl⟩)))
      · split
        · exact Or.inr (Or.inl ⟨_, rfl⟩)
        · exact Or.inl ⟨_, rfl⟩
    · rw [parseValue_bare s (Bool.not_eq_true _ ▸ hq)]
      split
      · exact Or.inr (Or.inl ⟨_, rfl⟩)
      · split
        · exact Or.inr (Or.inr (Or.inl ⟨_, rfl⟩))
        · split
          · exact Or.inr (Or.inr (Or.inl ⟨_, rfl⟩))
          · split
            · exact Or.inr (Or.inr (Or.inr (Or.inl rfl)))
            · exact Or.inl ⟨_, rfl⟩
  · intro s d hq ht
    rw [parseValue_quoted s hq, ht]
  · intro s hq
    constructor
    · intro b h
      rw [parseValue_quoted s hq] at h
      split at h
      · exact Value.noConfusion h
      · split at h
        · exact Value.noConfusion h
        · exact Value.noConfusion h
    · intro h
      rw [parseValue_quoted s hq] at h
      split at h
      · exact Value.noConfusion h
      · split at h
        · exact Value.noConfusion h
        · exact Value.noConfusion h
  · intro s hq d h
    rw [parseValue_bare s hq] at h
    split at h
    · exact Value.noConfusion h
    · split at h
      · exact Value.noConfusion h
      · split at h
        · exact Value.noConfusion h
        · split at h
          · exact Value.noConfusion h
          · exact Value.noConfusion h

/-- **C1, witness.**  The amended theorem applied at concrete literals. -/
theorem c1_literal_resolver_witness :
    parseValue (str ("\"2025-10-10\"")) = Value.vTimestamp ⟨2025, 10, 10, 0, 0, 0, 0, true⟩ ∧
    parseValue (str ("\"true\"")) ≠ Value.vBool true ∧
    (∀ d, parseValue (str ("25")) ≠ Value.vTimestamp d) := by
  refine ⟨?_, ?_, ?_⟩
  · exact c1_literal_resolver.2.1 (str ("\"2025-10-10\"")) ⟨2025, 10, 10, 0, 0, 0, 0, true⟩
      (by decide) (by decide)
  · exact fun h => (c1_literal_resolver.2.2.1 (str ("\"true\"")) (by decide)).1 true h
  · exact c1_literal_resolver.2.2.2.1 (str ("25")) (by decide)

/-- **C4.**  While the tokenizer scan is inside a quoted span, no token
boundary is ever produced: every character (whitespace, operators, and
the closing quote alike) is appended to the current token and the emitted
token list is unchanged.  Consequently `field = "A AND B"` yields exactly
the 3 tokens `field`, `=`, `"A AND B"`. -/
theorem c4_tokenizer_quoted_span :
    (∀ (st : ScanSt) (c : Char), st.inQuotes = true →
        (scanStep st c).tokens = st.tokens ∧
        (scanStep st c).current = st.current ++ [c]) ∧
    tokenizeWhereClause (str ("field = \"A AND B\"")) =
      [str ("field"), str ("="), str ("\"A AND B\"")] := by
  constructor
  · intro st c h
    by_cases hc : some c = st.quoteChar <;> simp [scanStep, h, hc]
  · decide

/-- **C4, witness.**  The in-quotes invariant applied at a concrete scan
state and character (a space inside a double-quoted span). -/
theorem c4_tokenizer_quoted_span_witness :
    (scanStep ⟨[], [ '"' ], true, some '"'⟩ ' ').tokens = [] ∧
    (scanStep ⟨[], [ '"' ], true, some '"'⟩ ' ').current = [ '"' ] ++ [ ' ' ] :=
  c4_tokenizer_quoted_span.1 ⟨[], [ '"' ], true, some '"'⟩ ' ' rfl

/-- **C2 (code bug).**  `LIMIT -1` does not fail: the capture regex
`LIMIT\s+(\d+)` can only ever match a digit string, so a negative
argument simply never matches, the clause is silently dropped, and the
`limit < 0` validation (line 76-78) is dead code.  `LIMIT 0` parses to a
limit of `0`, but `executeQuery`'s truthiness test `if (parsed.limit)`
(line 456) then applies no limit at all, so the query returns every row
rather than zero rows. -/
theorem c2_limit_dead_validation :
    parseSQL (str ("SELECT * FROM users LIMIT -1")) =
      .ok ⟨[.star], str ("users"), none, none, none⟩ ∧
    parseSQL (str ("SELECT * FROM users LIMIT 0")) =
      .ok ⟨[.star], str ("users"), none, none, some 0⟩ ∧
    buildQuery ⟨[.star], str ("users"), none, none, some 0⟩ =
      .ok (.runRows ⟨.collection (str ("users")), [], none, none⟩) :=
  ⟨by decide, by decide, by decide⟩

/-- The connective scan only reports indices in the open interior
`[i0, lastIdx)`. -/
theorem findConnGo_bounds :
    ∀ (l : List JStr) (lastIdx i0 i : Nat) (op : JStr),
      findConnGo lastIdx i0 l = some (i, op) → i0 ≤ i ∧ i < lastIdx := by
  intro l
  induction l with
  | nil =>
      intro lastIdx i0 i op h
      exact Option.noConfusion h
  | cons t rest ih =>
      intro lastIdx i0 i op h
      simp only [findConnGo] at h
      split at h
      · exact Option.noConfusion h
      · split at h
        · simp only [Option.some.injEq, Prod.mk.injEq] at h
          obtain ⟨rfl, rfl⟩ := h
          omega
        · have := ih lastIdx (i0 + 1) i op h
          omega

/-- A found connective lies strictly between the first and last token. -/
theorem findConn_bounds {ts : List JStr} {i : Nat} {op : JStr}
    (h : findConn ts = some (i, op)) : 1 ≤ i ∧ i + 1 < ts.length := by
  have := findConnGo_bounds (ts.drop 1) (ts.length - 1) 1 i op h
  omega

/-- Fuel irrelevance: any fuel at least the token count computes the same
result, so `parseConditionTokens`'s choice `fuel = length` is canonical. -/
theorem parseCondAux_fuel :
    ∀ (n m : Nat) (ts : List JStr), ts.length ≤ n → ts.length ≤ m →
      parseCondAux n ts = parseCondAux m ts := by
  intro n
  induction n using Nat.strong_induction_on with
  | _ n ih =>
    intro m ts hn hm
    cases n with
    | zero =>
        have hts : ts = [] := List.length_eq_zero.mp (Nat.le_zero.mp hn)
        subst hts
        cases m with
        | zero => rfl
        | succ m => simp [parseCondAux, findConn, findConnGo]
    | succ n =>
        cases m with
        | zero =>
            have hts : ts = [] := List.length_eq_zero.mp (Nat.le_zero.mp hm)
            subst hts
            simp [parseCondAux, findConn, findConnGo]
        | succ m =>
            simp only [parseCondAux]
            split
            · rfl
            · split
              · rfl
              · rename_i i op hconn
                have hb := findConn_bounds hconn
                have l1 : (List.take i ts).length ≤ n := by
                  simp only [List.length_take]; omega
                have l1m : (List.take i ts).length ≤ m := by
                  simp only [List.length_take]; omega
                have l2 : (List.drop (i + 1) ts).length ≤ n := by
                  simp only [List.length_drop]; omega
                have l2m : (List.drop (i + 1) ts).length ≤ m := by
                  simp only [List.length_drop]; omega
                rw [ih n (Nat.lt_succ_self n) m (List.take i ts) l1 l1m,
                    ih n (Nat.lt_succ_self n) m (List.drop (i + 1) ts) l2 l2m]

/-- `parseConditionTokens` on a nonempty token list is the fueled
recursion at `fuel = length`. -/
theorem parseCondTokens_ne_nil {ts : List JStr} (h : ts ≠ []) :
    parseConditionTokens ts = (parseCondAux ts.length ts).map some := by
  obtain ⟨t, ts', rfl⟩ := List.exists_cons_of_ne_nil h
  rfl

theorem mapSome_eq_ok {x : Except Err Cond} {l : Cond}
    (h : x.map some = .ok (some l)) : x = .ok l := by
  cases x with
  | error e => simp [Except.map] at h
  | ok c => simp [Except.map] at h; rw [h]

theorem mapSome_eq_error {x : Except Err Cond} {e : Err} :
    x.map some = .error e ↔ x = .error e := by
  cases x <;> simp [Except.map]

/-- **C3.**  The Predicate Tree Builder: (a) exactly three tokens always
build a leaf `Condition` (field aliased, literal resolved); (b) a
sequence of any other length with no connective in its interior fails
with the malformed-predicate error; (c) otherwise the sequence splits at
the first interior `AND`/`OR` (case-insensitively), both halves are
parsed recursively (errors propagating), and a `Logical` node joins them;
and (d) the tokens of `age > 25 AND city = 'NY'` yield
`Logical(AND, Condition(age, >, 25), Condition(city, =, "NY"))`. -/
theorem c3_predicate_tree_builder :
    (∀ a b c : JStr, parseConditionTokens [a, b, c] =
        .ok (some (.condition (convertIdToName a) b (parseValue c)))) ∧
    (∀ ts : List JStr, ts ≠ [] → ts.length ≠ 3 → findConn ts = none →
        parseConditionTokens ts = .error .malformedPredicate) ∧
    (∀ (ts : List JStr) (i : Nat) (op : JStr), ts.length ≠ 3 →
        findConn ts = some (i, op) →
        (∀ l r, parseConditionTokens (ts.take i) = .ok (some l) →
            parseConditionTokens (ts.drop (i + 1)) = .ok (some r) →
            parseConditionTokens ts = .ok (some (.logical op l r))) ∧
        (∀ e, parseConditionTokens (ts.take i) = .error e →
            parseConditionTokens ts = .error e) ∧
        (∀ l e, parseConditionTokens (ts.take i) = .ok (some l) →
            parseConditionTokens (ts.drop (i + 1)) = .error e →
            parseConditionTokens ts = .error e)) ∧
    parseConditionTokens (tokenizeWhereClause (str ("age > 25 AND city = 'NY'"))) =
      .ok (some (.logical (str ("AND"))
        (.condition (str ("age")) (str (">")) (.vNum (.num 25 0)))
        (.condition (str ("city")) (str ("=")) (.vStr (str ("NY")))))) := by
  refine ⟨?_, ?_, ?_, by decide⟩
  · intro a b c
    rfl
  · intro ts hne h3 hconn
    rw [parseCondTokens_ne_nil hne, mapSome_eq_error]
    obtain ⟨t, ts', rfl⟩ := List.exists_cons_of_ne_nil hne
    simp only [List.length_cons, parseCondAux]
    rw [if_neg (by simpa using h3), hconn]
  · intro ts i op h3 hconn
    have hb := findConn_bounds hconn
    have hne : ts ≠ [] := by
      intro h
      subst h
      simp at hb
    have htne : ts.take i ≠ [] := by
      intro h
      have := congrArg List.length h
      simp only [List.length_take, List.length_nil] at this
      omega
    have hdne : ts.drop (i + 1) ≠ [] := by
      intro h
      have := congrArg List.length h
      simp only [List.length_drop, List.length_nil] at this
      omega
    obtain ⟨t, ts', rfl⟩ := List.exists_cons_of_ne_nil hne
    have hlen3 : ¬((t :: ts').length = 3) := h3
    have hunf : parseCondAux (t :: ts').length (t :: ts') =
        (match parseCondAux ts'.length ((t :: ts').take i) with
         | Except.error e => (Except.error e : Except Err Cond)
         | Except.ok l =>
             match parseCondAux ts'.length ((t :: ts').drop (i + 1)) with
             | Except.error e => Except.error e
             | Except.ok r => Except.ok (Cond.logical op l r)) := by
      simp only [List.length_cons, parseCondAux]
      rw [if_neg (by simpa using h3), hconn]
    have hfl : ∀ x, parseCondAux ((t :: ts').take i).length ((t :: ts').take i) = x →
        parseCondAux ts'.length ((t :: ts').take i) = x := by
      intro x hx
      rw [parseCondAux_fuel ts'.length ((t :: ts').take i).length ((t :: ts').take i)
        (by simp only [List.length_take, List.length_cons] at *; omega) (le_refl _)]
      exact hx
    have hfr : ∀ x, parseCondAux ((t :: ts').drop (i + 1)).length ((t :: ts').drop (i + 1)) = x →
        parseCondAux ts'.length ((t :: ts').drop (i + 1)) = x := by
      intro x hx
      rw [parseCondAux_fuel ts'.length ((t :: ts').drop (i + 1)).length
        ((t :: ts').drop (i + 1))
        (by simp only [List.length_drop, List.length_cons] at *; omega) (le_refl _)]
      exact hx
    refine ⟨?_, ?_, ?_⟩
    · intro l r hl hr
      rw [parseCondTokens_ne_nil htne] at hl
      rw [parseCondTokens_ne_nil hdne] at hr
      rw [parseCondTokens_ne_nil hne, hunf, hfl _ (mapSome_eq_ok hl),
        hfr _ (mapSome_eq_ok hr)]
      rfl
    · intro e he
      rw [parseCondTokens_ne_nil htne, mapSome_eq_error] at he
      rw [parseCondTokens_ne_nil hne, hunf, hfl _ he]
      rfl
    · intro l e hl he
      rw [parseCondTokens_ne_nil htne] at hl
      rw [parseCondTokens_ne_nil hdne, mapSome_eq_error] at he
      rw [parseCondTokens_ne_nil hne, hunf, hfl _ (mapSome_eq_ok hl), hfr _ he]
      rfl

/-- **C3, witness.**  The builder theorem applied at concrete token
lists: a 1-token span with no connective fails, and the 7 tokens of
`age > 25 AND city = 'NY'` split at index 3. -/
theorem c3_predicate_tree_builder_witness :
    parseConditionTokens [str ("a")] = .error .malformedPredicate ∧
    parseConditionTokens [str ("age"), str (">"), str ("25"), str ("AND"),
        str ("city"), str ("="), str ("'NY'")] =
      .ok (some (.logical (str ("AND"))
        (.condition (str ("age")) (str (">")) (.vNum (.num 25 0)))
        (.condition (str ("city")) (str ("=")) (.vStr (str ("NY")))))) := by
  constructor
  · exact c3_predicate_tree_builder.2.1 [str ("a")] (by decide) (by decide) (by decide)
  · exact (c3_predicate_tree_builder.2.2.1 [str ("age"), str (">"), str ("25"),
      str ("AND"), str ("city"), str ("="), str ("'NY'")] 3 (str ("AND"))
      (by decide) (by decide)).1 _ _ (by decide) (by decide)

/-- The comma-split mapper never produces an aggregation item. -/
theorem parseOneField_ne_agg (w fn fld : JStr) :
    parseOneField w ≠ .aggregation fn fld := by
  simp only [parseOneField]
  split
  · exact SelItem.noConfusion
  · split
    · exact SelItem.noConfusion
    · exact SelItem.noConfusion

/-- `parseSelectFields` yields an aggregation item only as the whole
select list `[COUNT(*)]`. -/
theorem selectFields_cases (s : JStr) :
    parseSelectFields s = [SelItem.aggregation (str ("COUNT")) (str ("*"))] ∨
    ∀ fn fld, SelItem.aggregation fn fld ∉ parseSelectFields s := by
  simp only [parseSelectFields]
  split
  · exact Or.inl rfl
  · split
    · refine Or.inr fun fn fld h => ?_
      simp at h
    · refine Or.inr fun fn fld h => ?_
      simp only [List.mem_map] at h
      obtain ⟨w, _, hw⟩ := h
      exact parseOneField_ne_agg w fn fld hw

/-- Inversion of a successful `parseSQL`: the select list came from
`parseSelectFields`, and the COUNT/ORDER-BY guard was passed. -/
theorem parseSQL_ok_inv {sql : JStr} {p : Parsed} (h : parseSQL sql = .ok p) :
    (∃ s, p.select = parseSelectFields s) ∧
    (isCountSelect p.select && p.orderBy.isSome) = false := by
  simp only [parseSQL] at h
  split at h
  · exact Except.noConfusion h
  · split at h
    · exact Except.noConfusion h
    · split at h
      · exact Except.noConfusion h
      · split at h
        · exact Except.noConfusion h
        · split at h
          · exact Except.noConfusion h
          · split at h
            · exact Except.noConfusion h
            · rename_i hguard
              injection h with h'
              subst h'
              exact ⟨⟨_, rfl⟩, by simpa using hguard⟩

/-- **C5.**  `SELECT COUNT(*) FROM x ORDER BY y ASC` fails with the
COUNT/ORDER-BY error, and every successfully validated plan satisfies the
invariant: a COUNT aggregate in the select list is the sole item and the
plan's `orderBy` is null. -/
theorem c5_count_orderby :
    parseSQL (str ("SELECT COUNT(*) FROM x ORDER BY y ASC")) = .error .countOrderBy ∧
    (∀ (sql : JStr) (p : Parsed) (fn fld : JStr), parseSQL sql = .ok p →
        SelItem.aggregation fn fld ∈ p.select →
        p.select = [SelItem.aggregation (str ("COUNT")) (str ("*"))] ∧
        p.orderBy = none) := by
  refine ⟨by decide, ?_⟩
  intro sql p fn fld h hmem
  obtain ⟨⟨s, hs⟩, hguard⟩ := parseSQL_ok_inv h
  rcases selectFields_cases s with hc | hno
  · refine ⟨hs.trans hc, ?_⟩
    cases ho : p.orderBy with
    | none => rfl
    | some ob =>
        rw [hs, hc, ho] at hguard
        simp [isCountSelect] at hguard
  · exact absurd (hs ▸ hmem) (hno fn fld)

/-- **C5, witness.**  The invariant applied to the plan of
`SELECT COUNT(*) FROM x`. -/
theorem c5_count_orderby_witness :
    parseSQL (str ("SELECT COUNT(*) FROM x")) =
      .ok ⟨[SelItem.aggregation (str ("COUNT")) (str ("*"))], str ("x"),
        none, none, none⟩ ∧
    (Parsed.mk [SelItem.aggregation (str ("COUNT")) (str ("*"))] (str ("x"))
        none none none).select =
      [SelItem.aggregation (str ("COUNT")) (str ("*"))] ∧
    (Parsed.mk [SelItem.aggregation (str ("COUNT")) (str ("*"))] (str ("x"))
        none none none).orderBy = none := by
  refine ⟨by decide, ?_⟩
  have := c5_count_orderby.2 (str ("SELECT COUNT(*) FROM x"))
    ⟨[SelItem.aggregation (str ("COUNT")) (str ("*"))], str ("x"), none, none, none⟩
    (str ("COUNT")) (str ("*")) (by decide) (by simp)
  exact this

/-- **C10.**  A select list of two or more items never contains an
aggregation item, so `SELECT COUNT(*), name FROM x` parses `COUNT(*)` as
an ordinary field whose name is the literal text `COUNT(*)`; such a query
is not a count query (the translator takes the plain row path, issuing no
server-side count), and it is accepted together with `ORDER BY`. -/
theorem c10_count_with_other_items :
    (∀ s : JStr, 2 ≤ (parseSelectFields s).length →
        ∀ fn fld, SelItem.aggregation fn fld ∉ parseSelectFields s) ∧
    parseSelectFields (str ("COUNT(*), name")) =
      [.field (str ("COUNT(*)")), .field (str ("name"))] ∧
    parseSQL (str ("SELECT COUNT(*), name FROM x ORDER BY y ASC")) =
      .ok ⟨[.field (str ("COUNT(*)")), .field (str ("name"))], str ("x"), none,
        some (str ("y"), str ("ASC")), none⟩ ∧
    isCountSelect [SelItem.field (str ("COUNT(*)")), SelItem.field (str ("name"))] = false ∧
    buildQuery ⟨[.field (str ("COUNT(*)")), .field (str ("name"))], str ("x"), none,
        some (str ("y"), str ("ASC")), none⟩ =
      .ok (.runRows ⟨.collection (str ("x")), [], some (str ("y"), str ("asc")), none⟩) := by
  refine ⟨?_, by decide, by decide, by decide, by decide⟩
  intro s hlen fn fld hmem
  rcases selectFields_cases s with hc | hno
  · rw [hc] at hlen
    simp at hlen
  · exact hno fn fld hmem

/-- **C10, witness.**  The no-aggregation property applied to the
two-item select list `a, b`. -/
theorem c10_count_with_other_items_witness :
    SelItem.aggregation (str ("COUNT")) (str ("*")) ∉ parseSelectFields (str ("a, b")) :=
  c10_count_with_other_items.1 (str ("a, b")) (by decide) (str ("COUNT")) (str ("*"))

/-- **C6.**  `SELECT * FROM x WHERE a = 1 OR b = 2` parses successfully —
the OR is represented as a `Logical` node in the predicate tree — and
only translation fails, with the OR-unsupported error; an OR node always
fails at translation, while an AND node applies the left side's filters
and then the right side's to the result (cumulatively). -/
theorem c6_or_fails_at_translation :
    parseSQL (str ("SELECT * FROM x WHERE a = 1 OR b = 2")) =
      .ok ⟨[.star], str ("x"),
        some (.logical (str ("OR"))
          (.condition (str ("a")) (str ("=")) (.vNum (.num 1 0)))
          (.condition (str ("b")) (str ("=")) (.vNum (.num 2 0)))),
        none, none⟩ ∧
    buildQuery ⟨[.star], str ("x"),
        some (.logical (str ("OR"))
          (.condition (str ("a")) (str ("=")) (.vNum (.num 1 0)))
          (.condition (str ("b")) (str ("=")) (.vNum (.num 2 0)))),
        none, none⟩ = .error .unsupportedOr ∧
    (∀ (q : FsQuery) (l r : Cond),
        applyCond q (.logical (str ("OR")) l r) = .error .unsupportedOr) ∧
    (∀ (q q1 q2 : FsQuery) (l r : Cond), applyCond q l = .ok q1 →
        applyCond q1 r = .ok q2 →
        applyCond q (.logical (str ("AND")) l r) = .ok q2) := by
  refine ⟨by decide, by decide, ?_, ?_⟩
  · intro q l r
    rfl
  · intro q q1 q2 l r h1 h2
    simp only [applyCond, if_pos rfl]
    rw [h1]
    exact h2

/-- **C6, witness.**  The AND-cumulative clause applied to two concrete
leaf conditions: both filters are applied in order. -/
theorem c6_or_fails_at_translation_witness :
    applyCond ⟨.collection (str ("x")), [], none, none⟩
      (.logical (str ("AND"))
        (.condition (str ("a")) (str ("=")) (.vNum (.num 1 0)))
        (.condition (str ("b")) (str (">")) (.vNum (.num 2 0)))) =
      .ok ⟨.collection (str ("x")),
        [(str ("a"), str ("=="), .vNum (.num 1 0)),
         (str ("b"), str (">"), .vNum (.num 2 0))], none, none⟩ :=
  c6_or_fails_at_translation.2.2.2
    ⟨.collection (str ("x")), [], none, none⟩
    ⟨.collection (str ("x")), [(str ("a"), str ("=="), .vNum (.num 1 0))], none, none⟩
    ⟨.collection (str ("x")),
      [(str ("a"), str ("=="), .vNum (.num 1 0)),
       (str ("b"), str (">"), .vNum (.num 2 0))], none, none⟩
    _ _ (by decide) (by decide)

/-- Filter application never changes the scope a query was opened on. -/
theorem applyCond_scope :
    ∀ (c : Cond) (q q' : FsQuery), applyCond q c = .ok q' → q'.scope = q.scope := by
  intro c
  induction c with
  | condition f op v =>
      intro q q' h
      simp only [applyCond, applySimpleCondition] at h
      split at h
      · injection h with h'
        rw [← h']
      · exact Except.noConfusion h
  | logical op l r ihl ihr =>
      intro q q' h
      simp only [applyCond] at h
      split at h
      · split at h
        · exact Except.noConfusion h
        · rename_i q1 hq1
          exact (ihr q1 q' h).trans (ihl q q1 hq1)
      · split at h
        · exact Except.noConfusion h
        · injection h with h'
          rw [← h']

theorem applyWhere_scope (oc : Option Cond) (q q' : FsQuery)
    (h : applyWhereConditions q oc = .ok q') : q'.scope = q.scope := by
  cases oc with
  | none => injection h with h'; rw [← h']
  | some c => exact applyCond_scope c q q' h

/-- **C7, counterexample.**  `SELECT * FROM GROUP landmarks` parses with
the whole text `GROUP landmarks` as its from-path, and the translator
opens a *plain collection* named `GROUP landmarks` — not a
collection-group query on `landmarks` as the claim states. -/
theorem c7_group_marker_counterexample :
    parseSQL (str ("SELECT * FROM GROUP landmarks")) =
      .ok ⟨[.star], str ("GROUP landmarks"), none, none, none⟩ ∧
    buildQuery ⟨[.star], str ("GROUP landmarks"), none, none, none⟩ =
      .ok (.runRows ⟨.collection (str ("GROUP landmarks")), [], none, none⟩) ∧
    Scope.collection (str ("GROUP landmarks")) ≠
      Scope.collectionGroup (str ("landmarks")) :=
  ⟨by decide, by decide, by decide⟩

/-- **C7 (amended).**  For every validated Query Plan the Plan Translator
opens the backend query as a plain collection scoped to the plan's
`fromPath`, on the row path and the count path alike; no leading `GROUP`
marker is recognised (it simply stays part of the collection path), and a
collection-group query is never opened. -/
theorem c7_plan_translator_scope :
    ∀ (p : Parsed) (q : FsQuery),
      buildQuery p = .ok (.runRows q) ∨ buildQuery p = .ok (.runCount q) →
      q.scope = Scope.collection p.fromPath := by
  intro p q h
  rcases h with h | h <;> simp only [buildQuery] at h
  · split at h
    · split at h
      · exact Except.noConfusion h
      · injection h with h'
        exact absurd h' (by simp)
    · split at h
      · exact Except.noConfusion h
      · rename_i q1 hq1
        injection h with h'
        injection h' with h''
        rw [← h'']
        have hsc := applyWhere_scope p.whereC _ q1 hq1
        cases p.orderBy <;> cases hl : p.limit <;>
          simp only [] <;>
          first
          | exact hsc
          | (split <;> exact hsc)
  · split at h
    · split at h
      · exact Except.noConfusion h
      · rename_i q1 hq1
        injection h with h'
        injection h' with h''
        rw [← h'']
        exact applyWhere_scope p.whereC _ q1 hq1
    · split at h
      · exact Except.noConfusion h
      · injection h with h'
        exact absurd h' (by simp)

/-- **C7, witness.**  The scope property applied to the concrete plan of
`SELECT * FROM GROUP landmarks`: the opened scope is the plain collection
`GROUP landmarks`. -/
theorem c7_plan_translator_scope_witness :
    (FsQuery.mk (.collection (str ("GROUP landmarks"))) [] none none).scope =
      Scope.collection (str ("GROUP landmarks")) :=
  c7_plan_translator_scope ⟨[.star], str ("GROUP landmarks"), none, none, none⟩
    ⟨.collection (str ("GROUP landmarks")), [], none, none⟩ (Or.inl (by decide))

theorem getVal_setKey_self (l : List (JStr × DocVal)) (k : JStr) (v : DocVal) :
    getVal (setKey l k v) k = some v := by
  induction l with
  | nil => simp [setKey, getVal]
  | cons p rest ih =>
      obtain ⟨ka, va⟩ := p
      by_cases hk : ka = k <;> simp [setKey, getVal, hk, ih]

theorem getVal_setKey_ne (l : List (JStr × DocVal)) (k k' : JStr) (v : DocVal)
    (h : k ≠ k') : getVal (setKey l k v) k' = getVal l k' := by
  induction l with
  | nil => simp [setKey, getVal, h]
  | cons p rest ih =>
      obtain ⟨ka, va⟩ := p
      by_cases hk : ka = k
      · subst hk
        simp [setKey, getVal, h]
      · simp [setKey, getVal, hk, ih]

/-- The `toDate` select item writes the key `toDate(createdAt)` with the
formatted / passed-through / null value, whatever was accumulated. -/
theorem projectItem_toDate (rt : JsRuntime) (includeId : Bool) (docId : JStr)
    (dat fd : List (JStr × DocVal)) :
    projectItem rt includeId docId dat fd
        (.func (str ("toDate")) (str ("createdAt"))) =
      setKey fd c8key
        (match getVal dat (str ("createdAt")) with
         | none => DocVal.vNull
         | some v => formatToDate rt v) := by
  have hne : (decide (str ("createdAt") = str ("__name__"))) = false := by decide
  have hkey : str ("toDate(") ++ str ("createdAt") ++ [ ')' ] = c8key := by decide
  cases hv : getVal dat (str ("createdAt")) with
  | none => simp [projectItem, hne, hasOwn, hv, hkey]
  | some v => simp [projectItem, hne, hasOwn, hv, hkey, getValD]

/-- `processRow` on the C8 select list is the two projection steps. -/
theorem processRow_c8 (rt : JsRuntime) (includeId : Bool) (docId : JStr)
    (data : List (JStr × DocVal)) :
    processRow rt c8sel includeId docId data =
      projectItem rt includeId docId
        (if includeId then setKey data (str ("__name__")) (.vStr docId) else data)
        (projectItem rt includeId docId
          (if includeId then setKey data (str ("__name__")) (.vStr docId) else data)
          [] (.field (str ("__name__"))))
        (.func (str ("toDate")) (str ("createdAt"))) := rfl

/-- **C8.**  `SELECT id, toDate(createdAt) FROM users WHERE id = "u1"`
aliases both the projected `id` and the filter field to the identity
sentinel `__name__`; and for every returned document, the projected row's
entry under the key `toDate(createdAt)` is `null` when the document lacks
`createdAt`, and otherwise `formatToDate` of its value — which formats
the value as `MM/DD/YY hh:mm:ss` in local time exactly when it is
date-like, and passes it through unchanged otherwise. -/
theorem c8_todate_projection :
    parseSQL (str ("SELECT id, toDate(createdAt) FROM users WHERE id = \"u1\"")) =
      .ok ⟨c8sel, str ("users"),
        some (.condition (str ("__name__")) (str ("=")) (.vStr (str ("u1")))),
        none, none⟩ ∧
    (∀ (rt : JsRuntime) (includeId : Bool) (docId : JStr)
        (data : List (JStr × DocVal)),
        (getVal data (str ("createdAt")) = none →
          getVal (processRow rt c8sel includeId docId data) c8key =
            some DocVal.vNull) ∧
        (∀ v, getVal data (str ("createdAt")) = some v →
          getVal (processRow rt c8sel includeId docId data) c8key =
            some (formatToDate rt v))) ∧
    (∀ (rt : JsRuntime) (v : DocVal),
        formatToDate rt v =
          match toDateLocal rt v with
          | some l => DocVal.vStr (fmtDate l)
          | none => v) := by
  refine ⟨by decide, ?_, ?_⟩
  · intro rt includeId docId data
    have hget : getVal
        (if includeId then setKey data (str ("__name__")) (.vStr docId) else data)
        (str ("createdAt")) = getVal data (str ("createdAt")) := by
      cases includeId with
      | false => rfl
      | true => exact getVal_setKey_ne data _ _ _ (by decide)
    constructor
    · intro hnone
      rw [processRow_c8, projectItem_toDate, hget, hnone, getVal_setKey_self]
    · intro v hv
      rw [processRow_c8, projectItem_toDate, hget, hv, getVal_setKey_self]
  · intro rt v
    cases v with
    | vNull => rfl
    | vBool b => cases b <;> rfl
    | vDate l => rfl
    | vTimestamp l => rfl
    | vStr s =>
        cases s with
        | nil => rfl
        | cons c cs =>
            simp only [formatToDate, toDateLocal]
    | vNum n =>
        cases n with
        | ofNat m =>
            cases m with
            | zero => rfl
            | succ k =>
                simp only [formatToDate, toDateLocal]
                split <;> split <;> rfl
        | negSucc m =>
            simp only [formatToDate, toDateLocal]
            split <;> split <;> rfl

/-- **C8, witness.**  The projection clauses applied to a concrete
runtime, document and field value. -/
theorem c8_todate_projection_witness :
    getVal (processRow
        ⟨fun _ => none, fun _ => ⟨1970, 1, 1, 0, 0, 0⟩, fun _ => [], fun _ => []⟩
        c8sel true (str ("d1"))
        [(str ("createdAt"), DocVal.vDate ⟨2025, 10, 10, 1, 2, 3⟩)]) c8key =
      some (formatToDate
        ⟨fun _ => none, fun _ => ⟨1970, 1, 1, 0, 0, 0⟩, fun _ => [], fun _ => []⟩
        (DocVal.vDate ⟨2025, 10, 10, 1, 2, 3⟩)) ∧
    getVal (processRow
        ⟨fun _ => none, fun _ => ⟨1970, 1, 1, 0, 0, 0⟩, fun _ => [], fun _ => []⟩
        c8sel true (str ("d1")) []) c8key = some DocVal.vNull := by
  constructor
  · exact ((c8_todate_projection.2.1
      ⟨fun _ => none, fun _ => ⟨1970, 1, 1, 0, 0, 0⟩, fun _ => [], fun _ => []⟩
      true (str ("d1"))
      [(str ("createdAt"), DocVal.vDate ⟨2025, 10, 10, 1, 2, 3⟩)]).2
      (DocVal.vDate ⟨2025, 10, 10, 1, 2, 3⟩) (by decide))
  · exact ((c8_todate_projection.2.1
      ⟨fun _ => none, fun _ => ⟨1970, 1, 1, 0, 0, 0⟩, fun _ => [], fun _ => []⟩
      true (str ("d1")) []).1 (by decide))

theorem mem_of_head? {l : List Char} {a : Char} (h : l.head? = some a) : a ∈ l := by
  cases l with
  | nil => exact Option.noConfusion h
  | cons b bs =>
      injection h with h'
      subst h'
      exact List.mem_cons_self _ _

theorem noWS_head {w : JStr} {b : Char} (h : noWS w = true) (hb : b ∈ w) :
    isWS b = false := by
  have := List.all_eq_true.mp h b hb
  simpa using this

theorem noWS_tail {c : Char} {w : JStr} (h : noWS (c :: w) = true) : noWS w = true := by
  simp only [noWS, List.all_cons, Bool.and_eq_true] at h
  exact h.2

theorem dropWhile_eq_self_of_head (l : List Char)
    (h : ∀ a, l.head? = some a → isWS a = false) : l.dropWhile isWS = l := by
  cases l with
  | nil => rfl
  | cons b bs =>
      have hb := h b rfl
      simp [List.dropWhile, hb]

theorem joinSp_ne_nil (ws : List JStr) (hne : ws ≠ [])
    (hw : ∀ w ∈ ws, w ≠ []) : joinSp ws ≠ [] := by
  cases ws with
  | nil => exact absurd rfl hne
  | cons w rest =>
      obtain ⟨a, w', rfl⟩ := List.exists_cons_of_ne_nil (hw _ (List.mem_cons_self _ _))
      cases rest <;> simp [joinSp]

theorem joinSp_head_not (ws : List JStr)
    (hws : ∀ w ∈ ws, w ≠ [] ∧ noWS w = true) :
    ∀ a, (joinSp ws).head? = some a → isWS a = false := by
  intro a ha
  cases ws with
  | nil => exact Option.noConfusion ha
  | cons w rest =>
      obtain ⟨b, w', rfl⟩ :=
        List.exists_cons_of_ne_nil (hws _ (List.mem_cons_self _ _)).1
      have hb : isWS b = false :=
        noWS_head (hws _ (List.mem_cons_self _ _)).2 (List.mem_cons_self _ _)
      cases rest with
      | nil =>
          injection ha with h'
          rw [← h']
          exact hb
      | cons r t =>
          simp only [joinSp, List.cons_append, List.head?_cons] at ha
          injection ha with h'
          rw [← h']
          exact hb

theorem joinSp_revHead_not : ∀ (ws : List JStr),
    (∀ w ∈ ws, w ≠ [] ∧ noWS w = true) →
    ∀ a, (joinSp ws).reverse.head? = some a → isWS a = false := by
  intro ws
  induction ws with
  | nil => intro _ a ha; exact Option.noConfusion ha
  | cons w rest ih =>
      intro hws a ha
      cases rest with
      | nil =>
          have hw := hws w (List.mem_cons_self _ _)
          have hmem : a ∈ w := by
            have h1 : a ∈ (joinSp [w]).reverse := mem_of_head? ha
            rw [show joinSp [w] = w from rfl, List.mem_reverse] at h1
            exact h1
          exact noWS_head hw.2 hmem
      | cons r t =>
          have hws' : ∀ u ∈ r :: t, u ≠ [] ∧ noWS u = true :=
            fun u hu => hws u (List.mem_cons_of_mem _ hu)
          have hrt : joinSp (r :: t) ≠ [] :=
            joinSp_ne_nil _ (by simp) (fun u hu => (hws' u hu).1)
          have hrev : (joinSp (r :: t)).reverse ≠ [] := by
            simpa using hrt
          obtain ⟨b, l', hb⟩ := List.exists_cons_of_ne_nil hrev
          rw [show joinSp (w :: r :: t) = w ++ ' ' :: joinSp (r :: t) from rfl,
            List.reverse_append, List.reverse_cons, hb] at ha
          simp only [List.cons_append, List.head?_cons] at ha
          injection ha with h'
          rw [← h']
          exact ih hws' b (by rw [hb]; rfl)

theorem jsTrim_joinSp (ws : List JStr)
    (hws : ∀ w ∈ ws, w ≠ [] ∧ noWS w = true) : jsTrim (joinSp ws) = joinSp ws := by
  unfold jsTrim
  rw [dropWhile_eq_self_of_head _ (joinSp_head_not ws hws),
    dropWhile_eq_self_of_head _ (joinSp_revHead_not ws hws),
    List.reverse_reverse]

theorem collapseGo_append_noWS : ∀ (w : JStr) (b : Bool) (tail : List Char),
    noWS w = true →
    collapseGo b (w ++ tail) = w ++ collapseGo (if w.isEmpty then b else false) tail := by
  intro w
  induction w with
  | nil => intro b tail _; simp
  | cons c w' ih =>
      intro b tail hno
      have hc : isWS c = false := noWS_head hno (List.mem_cons_self _ _)
      simp only [List.cons_append, collapseGo, hc, Bool.false_eq_true, if_false,
        List.isEmpty_cons]
      rw [show w'.append tail = w' ++ tail from rfl, ih false tail (noWS_tail hno),
        ite_self]

theorem collapseGo_joinSp : ∀ (ws : List JStr),
    (∀ w ∈ ws, w ≠ [] ∧ noWS w = true) →
    ∀ b, collapseGo b (joinSp ws) = joinSp ws := by
  intro ws
  induction ws with
  | nil => intro _ b; rfl
  | cons w rest ih =>
      intro hws b
      have hw := hws w (List.mem_cons_self _ _)
      cases rest with
      | nil =>
          have h1 := collapseGo_append_noWS w b [] hw.2
          rw [List.append_nil] at h1
          show collapseGo b w = w
          have h2 : collapseGo (if w.isEmpty then b else false) [] = [] := rfl
          rw [h1, h2, List.append_nil]
      | cons r t =>
          show collapseGo b (w ++ ' ' :: joinSp (r :: t)) = w ++ ' ' :: joinSp (r :: t)
          rw [collapseGo_append_noWS w b _ hw.2]
          obtain ⟨a, w', rfl⟩ := List.exists_cons_of_ne_nil hw.1
          simp only [List.isEmpty_cons, Bool.false_eq_true, if_false]
          have hsp : collapseGo false (' ' :: joinSp (r :: t)) = ' ' :: joinSp (r :: t) := by
            have hws' : ∀ u ∈ r :: t, u ≠ [] ∧ noWS u = true :=
              fun u hu => hws u (List.mem_cons_of_mem _ hu)
            simp only [collapseGo, show isWS ' ' = true from rfl, if_true,
              Bool.false_eq_true, if_false, ih hws' true]
          rw [hsp]

theorem splitChar_ne_nil (sep : Char) (t : List Char) : splitChar sep t ≠ [] := by
  cases t with
  | nil => simp [splitChar]
  | cons c cs =>
      cases h : splitChar sep cs with
      | nil => simp [splitChar, h]
      | cons p ps =>
          simp only [splitChar, h]
          split <;> simp

theorem splitChar_single : ∀ (w : JStr), noWS w = true → splitChar ' ' w = [w] := by
  intro w
  induction w with
  | nil => intro _; rfl
  | cons c w' ih =>
      intro h
      have hc : isWS c = false := noWS_head h (List.mem_cons_self _ _)
      have hcs : c ≠ ' ' := by
        intro h0
        rw [h0] at hc
        exact Bool.noConfusion hc
      simp only [splitChar, ih (noWS_tail h)]
      rw [if_neg hcs]

theorem splitChar_append_sep : ∀ (w t : JStr), noWS w = true →
    splitChar ' ' (w ++ ' ' :: t) = w :: splitChar ' ' t := by
  intro w
  induction w with
  | nil =>
      intro t _
      cases h : splitChar ' ' t with
      | nil => exact absurd h (splitChar_ne_nil ' ' t)
      | cons p ps => simp [splitChar, h]
  | cons c w' ih =>
      intro t h
      have hc : isWS c = false := noWS_head h (List.mem_cons_self _ _)
      have hcs : c ≠ ' ' := by
        intro h0
        rw [h0] at hc
        exact Bool.noConfusion hc
      simp only [List.cons_append, splitChar]
      rw [show w'.append (' ' :: t) = w' ++ ' ' :: t from rfl, ih t (noWS_tail h)]
      exact if_neg hcs

theorem splitChar_joinSp : ∀ (ws : List JStr),
    (∀ w ∈ ws, w ≠ [] ∧ noWS w = true) → ws ≠ [] →
    splitChar ' ' (joinSp ws) = ws := by
  intro ws
  induction ws with
  | nil => intro _ h; exact absurd rfl h
  | cons w rest ih =>
      intro hws _
      cases rest with
      | nil => exact splitChar_single w (hws w (List.mem_cons_self _ _)).2
      | cons r t =>
          show splitChar ' ' (w ++ ' ' :: joinSp (r :: t)) = w :: r :: t
          rw [splitChar_append_sep w _ (hws w (List.mem_cons_self _ _)).2,
            ih (fun u hu => hws u (List.mem_cons_of_mem _ hu)) (by simp)]

theorem normalize_joinSp (ws : List JStr)
    (hws : ∀ w ∈ ws, w ≠ [] ∧ noWS w = true) :
    normalize (joinSp ws) = joinSp ws := by
  unfold normalize
  rw [jsTrim_joinSp ws hws, collapseGo_joinSp ws hws false]

theorem isPrefixOf_self_append : ∀ (a b : JStr), List.isPrefixOf a (a ++ b) = true := by
  intro a b
  induction a with
  | nil => simp [List.isPrefixOf]
  | cons c cs ih => simp [List.isPrefixOf, ih]

/-- **C9.**  A query whose `ORDER BY` clause has no explicit `ASC`/`DESC`
direction parses without error: the clause is silently ignored (the
plan's `orderBy` is null) and the translator runs the query unordered.
Stated for every collection word `c` and field word `f` (whitespace-free,
nonempty, with `c` not ending in the keyword `WHERE`). -/
theorem c9_orderby_without_direction :
    ∀ c f : JStr, c ≠ [] → noWS c = true → endsCI c (str ("WHERE")) = false →
      f ≠ [] → noWS f = true →
      parseSQL (joinSp [str ("SELECT"), str ("*"), str ("FROM"), c,
          str ("ORDER"), str ("BY"), f]) =
        .ok ⟨[SelItem.star], c, none, none, none⟩ ∧
      buildQuery ⟨[SelItem.star], c, none, none, none⟩ =
        .ok (.runRows ⟨.collection c, [], none, none⟩) := by
  intro c f hc hcW hcWhere hf hfW
  have hws : ∀ w ∈ [str ("SELECT"), str ("*"), str ("FROM"), c,
      str ("ORDER"), str ("BY"), f], w ≠ [] ∧ noWS w = true := by
    intro w hw
    simp only [List.mem_cons, List.not_mem_nil, or_false] at hw
    rcases hw with rfl | rfl | rfl | rfl | rfl | rfl | rfl
    · exact ⟨by decide, by decide⟩
    · exact ⟨by decide, by decide⟩
    · exact ⟨by decide, by decide⟩
    · exact ⟨hc, hcW⟩
    · exact ⟨by decide, by decide⟩
    · exact ⟨by decide, by decide⟩
    · exact ⟨hf, hfW⟩
  set ws : List JStr := [str ("SELECT"), str ("*"), str ("FROM"), c,
      str ("ORDER"), str ("BY"), f] with hwsdef
  have hnorm : normalize (joinSp ws) = joinSp ws := normalize_joinSp ws hws
  have hwords : splitChar ' ' (joinSp ws) = ws := splitChar_joinSp ws hws (by simp [hwsdef])
  have hpre : List.isPrefixOf (str ("SELECT")) (upperStr (joinSp ws)) = true := by
    have h1 : upperStr (joinSp ws) =
        str ("SELECT") ++ upperStr (' ' :: joinSp [str ("*"), str ("FROM"), c,
          str ("ORDER"), str ("BY"), f]) := by
      show upperStr (str ("SELECT") ++ (' ' :: joinSp [str ("*"), str ("FROM"), c,
          str ("ORDER"), str ("BY"), f])) = _
      unfold upperStr
      rw [List.map_append]
      congr 1
    rw [h1]
    exact isPrefixOf_self_append _ _
  have hsel : selectFieldsWords ws = some [str ("*")] := by
    simp only [hwsdef, selectFieldsWords, selGo,
      show eqCI (str ("SELECT")) (str ("SELECT")) = true from by decide,
      show eqCI (str ("*")) (str ("FROM")) = false from by decide,
      show eqCI (str ("FROM")) (str ("FROM")) = true from by decide,
      List.isEmpty_cons, List.isEmpty_nil, Bool.not_false, Bool.not_true,
      Bool.and_true, Bool.true_and, Bool.false_and, Bool.and_false,
      if_true, if_false, Bool.false_eq_true, List.nil_append]
  have hfrom : fromSearch ws = some [c] := by
    simp only [hwsdef, fromSearch, fromCapGo, isOrderByAt,
      show endsCI (str ("SELECT")) (str ("FROM")) = false from by decide,
      show endsCI (str ("*")) (str ("FROM")) = false from by decide,
      show endsCI (str ("FROM")) (str ("FROM")) = true from by decide,
      show startsCI (str ("ORDER")) (str ("WHERE")) = false from by decide,
      show eqCI (str ("ORDER")) (str ("ORDER")) = true from by decide,
      show startsCI (str ("BY")) (str ("BY")) = true from by decide,
      List.isEmpty_cons, Bool.not_false, Bool.and_true, Bool.true_and,
      Bool.false_and, Bool.and_false, Bool.false_or, Bool.or_false, Bool.true_or,
      if_true, if_false, Bool.false_eq_true]
  have hwhere : whereSearch ws = none := by
    simp only [hwsdef, whereSearch,
      show endsCI (str ("SELECT")) (str ("WHERE")) = false from by decide,
      show endsCI (str ("*")) (str ("WHERE")) = false from by decide,
      show endsCI (str ("FROM")) (str ("WHERE")) = false from by decide,
      hcWhere,
      show endsCI (str ("ORDER")) (str ("WHERE")) = false from by decide,
      show endsCI (str ("BY")) (str ("WHERE")) = false from by decide,
      List.isEmpty_cons, List.isEmpty_nil, Bool.not_false, Bool.not_true,
      Bool.and_true, Bool.true_and, Bool.false_and, Bool.and_false,
      if_true, if_false, Bool.false_eq_true]
  have horder : orderSearch ws = none := by
    simp only [hwsdef, orderSearch, limitOrEnd,
      show endsCI (str ("SELECT")) (str ("ORDER")) = false from by decide,
      show endsCI (str ("*")) (str ("ORDER")) = false from by decide,
      show endsCI (str ("FROM")) (str ("ORDER")) = false from by decide,
      show eqCI (str ("ORDER")) (str ("BY")) = false from by decide,
      Bool.false_and, Bool.and_false, Bool.true_and, Bool.and_true,
      if_true, if_false, Bool.false_eq_true]
  have hlimit : limitSearch ws = none := by
    simp only [hwsdef, limitSearch,
      show endsCI (str ("SELECT")) (str ("LIMIT")) = false from by decide,
      show endsCI (str ("*")) (str ("LIMIT")) = false from by decide,
      show endsCI (str ("FROM")) (str ("LIMIT")) = false from by decide,
      show digHead (str ("ORDER")) = false from by decide,
      show endsCI (str ("ORDER")) (str ("LIMIT")) = false from by decide,
      show endsCI (str ("BY")) (str ("LIMIT")) = false from by decide,
      Bool.false_and, Bool.and_false, if_true, if_false, Bool.false_eq_true]
  have hctrim : jsTrim (joinSp [c]) = c :=
    jsTrim_joinSp [c] (by
      intro w hw
      rw [List.mem_singleton] at hw
      subst hw
      exact ⟨hc, hcW⟩)
  refine ⟨?_, rfl⟩
  simp only [parseSQL, hnorm, wordsOf, hwords, hpre, Bool.not_true,
    Bool.false_eq_true, if_false, hsel, hfrom, hwhere, horder, hlimit,
    show parseSelectFields (joinSp [str ("*")]) = [SelItem.star] from by decide,
    hctrim, Option.map_none', Option.isSome_none,
    show isCountSelect [SelItem.star] = false from rfl,
    Bool.false_and, Bool.and_false]

/-- **C9, witness.**  The theorem applied at the concrete query
`SELECT * FROM x ORDER BY y`. -/
theorem c9_orderby_without_direction_witness :
    parseSQL (joinSp [str ("SELECT"), str ("*"), str ("FROM"), str ("x"),
        str ("ORDER"), str ("BY"), str ("y")]) =
      .ok ⟨[SelItem.star], str ("x"), none, none, none⟩ ∧
    buildQuery ⟨[SelItem.star], str ("x"), none, none, none⟩ =
      .ok (.runRows ⟨.collection (str ("x")), [], none, none⟩) :=
  c9_orderby_without_direction (str ("x")) (str ("y")) (by decide) (by decide)
    (by decide) (by decide) (by decide)
